import Mathlib

/-!
Verification development for the chrome-webhook-extension repository.

The file shallowly embeds the core of the extension:
* the webhook delivery dispatch with retry (`postToWebhookDirect` in background.js),
* the per-endpoint rate-limited FIFO delivery queue (`addToQueue` / `processQueue`),
* the LinkedIn mutual-connections parser (content script): field extraction,
  connection-row extraction, the multi-page session collector, and the payload
  builders.

Machine integers are modelled as `Nat` (all quantities involved are
non-negative timestamps, counters and millisecond durations, and the source
only ever subtracts a past timestamp from a later one, which `Nat`
subtraction models faithfully).  Fallible operations return `Option` or
`Except`.  Nondeterministic environment inputs (HTTP outcomes, the DOM, the
clock) are passed in as explicit oracles / parameters.
-/

namespace WebhookExt

/-! ## Delivery dispatch with retry (background.js, `postToWebhookDirect`)

```js
function postToWebhookDirect(webhookUrl, payload, retryCount = 3, webhookName = 'Webhook') {
  fetch(webhookUrl, { ... }).then(response => {
    if (!response.ok && retryCount > 0) {
      setTimeout(() => postToWebhookDirect(webhookUrl, payload, retryCount - 1, webhookName), 1000);
    } else if (response.ok) {
      showNotification(`... Success`, ...);
    } else {
      showNotification(`... Failed`, `Failed to send data after 3 attempts`, false);
    }
  }).catch(error => {
    if (retryCount > 0) {
      setTimeout(() => postToWebhookDirect(webhookUrl, payload, retryCount - 1, webhookName), 2000);
    } else {
      showNotification(`... Error`, ...);
    }
  });
}
```

The outcome of each successive `fetch` is supplied by an oracle
`Nat → FetchResult` (the n-th attempt, 0-based).  The trace records how many
`fetch` attempts were dispatched, what was finally reported to the observer,
and the backoff delay (ms) inserted before each re-attempt. -/

/-- Outcome of one `fetch` round trip: 2xx response, non-ok response, or a
network-level exception (promise rejection). -/
inductive FetchResult
  | ok
  | httpErr
  | netErr
deriving DecidableEq, Repr

/-- What the dispatch finally reports to the external observer
(success notification vs permanent-failure notification). -/
inductive Report
  | success
  | permanentFailure
deriving DecidableEq, Repr

/-- Observable trace of one delivery dispatch: number of HTTP attempts made,
final report, and the delay (ms) scheduled before each re-attempt. -/
structure DispatchTrace where
  attempts : Nat
  report : Report
  delays : List Nat
deriving DecidableEq, Repr

/-- Shallow embedding of `postToWebhookDirect`.  `oracle n` is the outcome of
the `(n+1)`-th fetch; `idx` is the index of the attempt this call performs;
`retryCount` mirrors the JS parameter (the source recurses with
`retryCount - 1` whenever `retryCount > 0`). -/
def postToWebhookDirect (oracle : Nat → FetchResult) : Nat → Nat → DispatchTrace
  | idx, retryCount =>
    match oracle idx, retryCount with
    | .ok, _ => { attempts := 1, report := .success, delays := [] }
    | .httpErr, r + 1 =>
        let t := postToWebhookDirect oracle (idx + 1) r
        { attempts := t.attempts + 1, report := t.report, delays := 1000 :: t.delays }
    | .httpErr, 0 => { attempts := 1, report := .permanentFailure, delays := [] }
    | .netErr, r + 1 =>
        let t := postToWebhookDirect oracle (idx + 1) r
        { attempts := t.attempts + 1, report := t.report, delays := 2000 :: t.delays }
    | .netErr, 0 => { attempts := 1, report := .permanentFailure, delays := [] }

theorem postToWebhookDirect_attempts_le (oracle : Nat → FetchResult) :
    ∀ (retryCount idx : Nat),
      (postToWebhookDirect oracle idx retryCount).attempts ≤ retryCount + 1 := by
  intro retryCount
  induction retryCount with
  | zero =>
      intro idx
      unfold postToWebhookDirect
      cases oracle idx <;> simp
  | succ r ih =>
      intro idx
      unfold postToWebhookDirect
      cases oracle idx <;> simp <;> exact ih (idx + 1)

/-- **C1, counterexample.**  A delivery queue dispatch starts with
`retryCount = 3`; when every fetch fails at the HTTP level the code performs a
4th attempt after the first three have failed (the guard is `retryCount > 0`
and the initial call already consumes one attempt), contradicting the claim
that at most 3 total HTTP send attempts are made and that no further attempt
follows the 3rd failure. -/
theorem c1_counterexample :
    (postToWebhookDirect (fun _ => FetchResult.httpErr) 0 3).attempts = 4 ∧
      ¬ (postToWebhookDirect (fun _ => FetchResult.httpErr) 0 3).attempts ≤ 3 := by
  constructor
  · rfl
  · decide

/-- **C1, amended.**  A dispatch started with `retryCount = 3` makes at most
4 total HTTP attempts.  A delivery whose first two attempts fail at the HTTP
level and whose 3rd attempt succeeds is reported as overall success with
exactly 3 attempts and a ~1 s delay before each re-attempt; a delivery all of
whose attempts fail at the HTTP level makes exactly 4 attempts and is then
reported as permanent failure; a first attempt failing with a network-level
exception is retried after ~2 s. -/
theorem c1_retry_behavior :
    (∀ oracle idx, (postToWebhookDirect oracle idx 3).attempts ≤ 4) ∧
      postToWebhookDirect (fun n => if n < 2 then FetchResult.httpErr else FetchResult.ok) 0 3 =
        { attempts := 3, report := .success, delays := [1000, 1000] } ∧
      postToWebhookDirect (fun _ => FetchResult.httpErr) 0 3 =
        { attempts := 4, report := .permanentFailure, delays := [1000, 1000, 1000] } ∧
      postToWebhookDirect (fun n => if n = 0 then FetchResult.netErr else FetchResult.ok) 0 3 =
        { attempts := 2, report := .success, delays := [2000] } := by
  refine ⟨fun oracle idx => postToWebhookDirect_attempts_le oracle 3 idx, ?_, ?_, ?_⟩ <;> rfl

/-! ## Per-endpoint delivery queue (background.js, `addToQueue` / `processQueue`)

```js
function addToQueue(webhookUrl, payload, webhookName, rateLimit = 0) {
  if (!webhookQueues.has(webhookUrl)) {
    webhookQueues.set(webhookUrl, { queue: [], lastSent: 0, timer: null, rateLimit: rateLimit });
  }
  const queueData = webhookQueues.get(webhookUrl);
  queueData.rateLimit = rateLimit;
  queueData.queue.push({ payload, webhookName, timestamp: Date.now() });
  const now = Date.now();
  const timeSinceLastSent = now - queueData.lastSent;
  const rateLimitMs = queueData.rateLimit * 1000;
  const willBeQueued = queueData.rateLimit > 0 && (queueData.queue.length > 1 || timeSinceLastSent < rateLimitMs);
  if (willBeQueued) { showQueueNotification(webhookUrl, webhookName); }
  processQueue(webhookUrl);
}

function processQueue(webhookUrl) {
  const queueData = webhookQueues.get(webhookUrl);
  if (!queueData || queueData.queue.length === 0) return;
  const now = Date.now();
  const timeSinceLastSent = now - queueData.lastSent;
  const rateLimitMs = queueData.rateLimit * 1000;
  if (queueData.rateLimit > 0 && timeSinceLastSent < rateLimitMs) {
    const waitTime = rateLimitMs - timeSinceLastSent;
    if (queueData.timer) { clearTimeout(queueData.timer); }
    queueData.timer = setTimeout(() => processQueue(webhookUrl), waitTime);
    return;
  }
  const item = queueData.queue.shift();
  queueData.lastSent = now;
  clearQueueNotification(webhookUrl);
  postToWebhookDirect(webhookUrl, item.payload, 3, item.webhookName);
  if (queueData.queue.length > 0) {
    if (queueData.rateLimit > 0) {
      queueData.timer = setTimeout(() => processQueue(webhookUrl), rateLimitMs);
    } else {
      processQueue(webhookUrl);
    }
  }
}
```

The state of one endpoint's queue is a `QueueData`.  The `timer` field holds
the absolute (ms) time at which the single pending `setTimeout` callback will
invoke `processQueue`, or `none` when no callback is pending.  The `sends`
field is instrumentation: the log of `postToWebhookDirect` dispatches
`(payload, time)` in dispatch order.  Execution is modelled on the JS event
loop: timer callbacks fire exactly at their scheduled time, and a callback
due at the same instant as an external enqueue runs first. -/

/-- One entry of an endpoint queue (`{ payload, webhookName, timestamp }`;
the display name is irrelevant to the verified properties and omitted,
payloads are identified by a `Nat`). -/
structure QEntry where
  payload : Nat
  timestamp : Nat
deriving DecidableEq, Repr

/-- Mutable per-endpoint state (`webhookQueues.get(url)`), plus the dispatch
log `sends`. -/
structure QueueData where
  queue : List QEntry
  lastSent : Nat
  rateLimit : Nat
  timer : Option Nat
  sends : List (Nat × Nat)
deriving DecidableEq, Repr

/-- One step of `processQueue` at time `now`; the fuel bounds the
`processQueue -> processQueue` tail call taken when no rate limit is
configured (each such call pops one queue entry, so `queue.length + 1` fuel
is always enough). -/
def processQueueAux : Nat → QueueData → Nat → QueueData
  | 0, qd, _ => qd
  | fuel + 1, qd, now =>
    match qd.queue with
    | [] => qd
    | item :: rest =>
      let timeSinceLastSent := now - qd.lastSent
      let rateLimitMs := qd.rateLimit * 1000
      if qd.rateLimit > 0 ∧ timeSinceLastSent < rateLimitMs then
        { qd with timer := some (now + (rateLimitMs - timeSinceLastSent)) }
      else
        let qd1 : QueueData :=
          { queue := rest, lastSent := now, rateLimit := qd.rateLimit,
            timer := none, sends := qd.sends ++ [(item.payload, now)] }
        if rest.isEmpty then qd1
        else if qd.rateLimit > 0 then { qd1 with timer := some (now + rateLimitMs) }
        else processQueueAux fuel qd1 now

/-- `processQueue` invoked at time `now`. -/
def processQueue (qd : QueueData) (now : Nat) : QueueData :=
  processQueueAux (qd.queue.length + 1) qd now

/-- The fresh endpoint state created by `addToQueue` when the endpoint has no
queue yet (`{ queue: [], lastSent: 0, timer: null, rateLimit }`). -/
def freshQueueData (rateLimit : Nat) : QueueData :=
  { queue := [], lastSent := 0, rateLimit := rateLimit, timer := none, sends := [] }

/-- `addToQueue` at time `now`.  `qd?` is `none` when the endpoint has no
queue entry in the `webhookQueues` map yet.  The returned `Bool` is the
`willBeQueued` flag (whether a queued-notification is raised). -/
def addToQueue (qd? : Option QueueData) (payload : Nat) (rateLimit : Nat) (now : Nat) :
    QueueData × Bool :=
  let qd0 := qd?.getD (freshQueueData rateLimit)
  let qd1 := { qd0 with rateLimit := rateLimit, queue := qd0.queue ++ [⟨payload, now⟩] }
  let timeSinceLastSent := now - qd1.lastSent
  let rateLimitMs := rateLimit * 1000
  let willBeQueued :=
    decide (qd1.rateLimit > 0) &&
      (decide (qd1.queue.length > 1) || decide (timeSinceLastSent < rateLimitMs))
  (processQueue qd1 now, willBeQueued)

/-- The pending `setTimeout` callback fires: the scheduled `processQueue` runs
at the scheduled time.  (Firing consumes the pending callback; `processQueue`
may schedule a new one.) -/
def fireTimer (qd : QueueData) : QueueData :=
  match qd.timer with
  | none => qd
  | some t => processQueue { qd with timer := none } t

/-- Fire every pending timer callback due at or before `deadline`, in order.
Each firing with a positive rate limit pops one queue entry, so
`queue.length + 1` fuel always suffices. -/
def fireDue : Nat → QueueData → Nat → QueueData
  | 0, qd, _ => qd
  | fuel + 1, qd, deadline =>
    match qd.timer with
    | some t => if t ≤ deadline then fireDue fuel (fireTimer qd) deadline else qd
    | none => qd

/-- An external `addToQueue` call for one endpoint: time of the call, payload,
and the rate limit (seconds) passed by the caller. -/
structure EnqueueEvent where
  time : Nat
  payload : Nat
  rateLimit : Nat
deriving DecidableEq, Repr

/-- Run a time-ordered list of external enqueue events against one endpoint,
firing due timer callbacks before each event. -/
def runEvents : List EnqueueEvent → Option QueueData → Option QueueData
  | [], qd? => qd?
  | ev :: evs, qd? =>
    let fired :=
      match qd? with
      | none => none
      | some qd => some (fireDue (qd.queue.length + 1) qd ev.time)
    runEvents evs (some (addToQueue fired ev.payload ev.rateLimit ev.time).1)

/-- After the last external event, let every remaining scheduled timer
callback fire. -/
def drainAll : Nat → QueueData → QueueData
  | 0, qd => qd
  | fuel + 1, qd =>
    match qd.timer with
    | some _ => drainAll fuel (fireTimer qd)
    | none => qd

/-- Complete run for one endpoint: process all enqueue events, then drain. -/
def runDeliveries (evs : List EnqueueEvent) : QueueData :=
  match runEvents evs none with
  | none => freshQueueData 0
  | some qd => drainAll (qd.queue.length + 1) qd

/-- Payloads dispatched so far, in dispatch order. -/
def sentPayloads (qd : QueueData) : List Nat := qd.sends.map Prod.fst

/-- Dispatch timestamps, in dispatch order. -/
def sendTimes (qd : QueueData) : List Nat := qd.sends.map Prod.snd

/-- Payloads still queued, in FIFO order. -/
def queuePayloads (qd : QueueData) : List Nat := qd.queue.map QEntry.payload

/-- Invariant of one endpoint's queue state between event-loop turns, for a
fixed configured interval `I > 0` (seconds); `τ` is the time of the last
processed action. -/
structure QInv (I τ : Nat) (qd : QueueData) : Prop where
  rl_eq : qd.rateLimit = I
  chain : List.Chain' (fun a b => a + I * 1000 ≤ b) (sendTimes qd)
  last_eq : qd.lastSent = (sendTimes qd).getLastD 0
  last_le : qd.lastSent ≤ τ
  timer_eq : ∀ t, qd.timer = some t → t = qd.lastSent + I * 1000
  timer_queue : qd.timer.isSome = true → qd.queue ≠ []
  queue_timer : qd.queue ≠ [] → qd.timer.isSome = true

theorem QInv.mono {I τ τ2 : Nat} {qd : QueueData} (h : QInv I τ qd) (hτ : τ ≤ τ2) :
    QInv I τ2 qd :=
  { h with last_le := le_trans h.last_le hτ }

/-- Characterization of `processQueue` on a non-empty queue with a positive
rate limit (the `rateLimit === 0` tail call is never taken). -/
theorem processQueue_cons (qd : QueueData) (now : Nat) (item : QEntry) (rest : List QEntry)
    (hq : qd.queue = item :: rest) (hI : 0 < qd.rateLimit) :
    processQueue qd now =
      if now - qd.lastSent < qd.rateLimit * 1000 then
        { qd with timer := some (now + (qd.rateLimit * 1000 - (now - qd.lastSent))) }
      else
        { queue := rest, lastSent := now, rateLimit := qd.rateLimit,
          timer := if rest.isEmpty then none else some (now + qd.rateLimit * 1000),
          sends := qd.sends ++ [(item.payload, now)] } := by
  have hlen : qd.queue.length = rest.length + 1 := by rw [hq]; simp
  unfold processQueue
  rw [hlen]
  unfold processQueueAux
  rw [hq]
  by_cases hw : now - qd.lastSent < qd.rateLimit * 1000
  · simp [hI, hw]
  · by_cases he : rest.isEmpty <;> simp [hI, hw, he]

/-- Invariant propagation for one `processQueue` call at time `now` on a
non-empty queue.  The input state may be mid-turn (just after a push, or just
after the pending timer callback was consumed), so nothing is assumed about
its `timer` field. -/
theorem processQueue_inv (I now : Nat) (hI : 0 < I) (qd : QueueData)
    (hrl : qd.rateLimit = I)
    (hchain : List.Chain' (fun a b => a + I * 1000 ≤ b) (sendTimes qd))
    (hlast_eq : qd.lastSent = (sendTimes qd).getLastD 0)
    (hlast_le : qd.lastSent ≤ now)
    (hne : qd.queue ≠ []) :
    QInv I now (processQueue qd now) ∧
      sentPayloads (processQueue qd now) ++ queuePayloads (processQueue qd now) =
        sentPayloads qd ++ queuePayloads qd ∧
      (¬ now - qd.lastSent < I * 1000 →
        (processQueue qd now).queue.length + 1 = qd.queue.length) ∧
      (processQueue qd now).queue.length ≤ qd.queue.length := by
  obtain ⟨item, rest, hq⟩ := List.exists_cons_of_ne_nil hne
  rw [processQueue_cons qd now item rest hq (hrl ▸ hI), hrl]
  by_cases hw : now - qd.lastSent < I * 1000
  · rw [if_pos hw]
    have hv : now + (I * 1000 - (now - qd.lastSent)) = qd.lastSent + I * 1000 := by omega
    rw [hv]
    refine ⟨?_, rfl, fun h => absurd hw h, le_refl _⟩
    exact
      { rl_eq := rfl
        chain := hchain
        last_eq := hlast_eq
        last_le := hlast_le
        timer_eq := by
          intro t ht
          simp only [Option.some.injEq] at ht
          show t = qd.lastSent + I * 1000
          omega
        timer_queue := fun _ => hne
        queue_timer := fun _ => rfl }
  · rw [if_neg hw]
    have hstep : qd.lastSent + I * 1000 ≤ now := by omega
    refine ⟨?_, ?_, ?_, ?_⟩
    · refine
        { rl_eq := rfl
          chain := ?_
          last_eq := ?_
          last_le := le_refl _
          timer_eq := ?_
          timer_queue := ?_
          queue_timer := ?_ }
      · show List.Chain' _ ((qd.sends ++ [(item.payload, now)]).map Prod.snd)
        rw [List.map_append]
        rw [List.chain'_append]
        refine ⟨hchain, List.chain'_singleton _, ?_⟩
        intro x hx y hy
        simp only [List.map_cons, List.map_nil, List.head?_cons, Option.mem_def,
          Option.some.injEq] at hy
        subst hy
        have hx0 : (sendTimes qd).getLastD 0 = x := by
          rw [List.getLastD_eq_getLast?]
          unfold sendTimes
          rw [hx]
          rfl
        have : qd.lastSent = x := by rw [hlast_eq, hx0]
        omega
      · show now = ((qd.sends ++ [(item.payload, now)]).map Prod.snd).getLastD 0
        simp
      · intro t ht
        by_cases he : rest.isEmpty <;> simp only [he] at ht <;> simp_all
      · intro hsome
        by_cases he : rest.isEmpty
        · simp [he] at hsome
        · simpa using fun h => he (by simp [h])
      · intro hrest
        have he : rest.isEmpty = false := by
          cases rest
          · exact absurd rfl hrest
          · rfl
        simp [he]
    · unfold sentPayloads queuePayloads
      rw [hq]
      simp
    · intro _
      show rest.length + 1 = qd.queue.length
      rw [hq]
      rfl
    · show rest.length ≤ qd.queue.length
      rw [hq]
      simp

/-- Invariant propagation for `addToQueue` on an existing endpoint queue,
called with the endpoint's configured interval `I`. -/
theorem addToQueue_inv (I τ now payload : Nat) (hI : 0 < I) (qd : QueueData)
    (hinv : QInv I τ qd) (hτ : τ ≤ now) :
    QInv I now (addToQueue (some qd) payload I now).1 ∧
      sentPayloads (addToQueue (some qd) payload I now).1 ++
          queuePayloads (addToQueue (some qd) payload I now).1 =
        sentPayloads qd ++ queuePayloads qd ++ [payload] := by
  have hq1 :
      (addToQueue (some qd) payload I now).1 =
        processQueue
          { qd with rateLimit := I, queue := qd.queue ++ [⟨payload, now⟩] } now := rfl
  rw [hq1]
  set qd1 : QueueData := { qd with rateLimit := I, queue := qd.queue ++ [⟨payload, now⟩] }
  have h1 := processQueue_inv I now hI qd1 rfl hinv.chain hinv.last_eq
    (le_trans hinv.last_le hτ) (by simp [qd1])
  refine ⟨h1.1, ?_⟩
  rw [h1.2.1]
  unfold sentPayloads queuePayloads
  simp [qd1]

/-- `addToQueue` on an endpoint with no queue yet creates
`{ queue: [], lastSent: 0, timer: null, rateLimit }` and proceeds; the
resulting state satisfies the invariant and holds exactly the new payload. -/
theorem addToQueue_none_inv (I now payload : Nat) (hI : 0 < I) :
    QInv I now (addToQueue none payload I now).1 ∧
      sentPayloads (addToQueue none payload I now).1 ++
        queuePayloads (addToQueue none payload I now).1 = [payload] := by
  have hq1 :
      (addToQueue none payload I now).1 =
        processQueue
          { queue := [⟨payload, now⟩], lastSent := 0, rateLimit := I,
            timer := none, sends := [] } now := rfl
  rw [hq1]
  set qd1 : QueueData :=
    { queue := [⟨payload, now⟩], lastSent := 0, rateLimit := I, timer := none, sends := [] }
  have h1 := processQueue_inv I now hI qd1 rfl (by simp [qd1, sendTimes])
    (by simp [qd1, sendTimes]) (Nat.zero_le _) (by simp [qd1])
  refine ⟨h1.1, ?_⟩
  rw [h1.2.1]
  unfold sentPayloads queuePayloads
  simp [qd1]

/-- Invariant propagation when the pending timer callback fires: the callback
was scheduled for `qd.lastSent + I * 1000`, at which instant the rate-limit
guard passes and the head entry is dispatched. -/
theorem fireTimer_inv (I τ : Nat) (hI : 0 < I) (qd : QueueData)
    (hinv : QInv I τ qd) (t : Nat) (ht : qd.timer = some t) :
    QInv I t (fireTimer qd) ∧
      sentPayloads (fireTimer qd) ++ queuePayloads (fireTimer qd) =
        sentPayloads qd ++ queuePayloads qd ∧
      (fireTimer qd).queue.length + 1 = qd.queue.length := by
  have htv : t = qd.lastSent + I * 1000 := hinv.timer_eq t ht
  have hne : qd.queue ≠ [] := hinv.timer_queue (by rw [ht]; rfl)
  have hf : fireTimer qd = processQueue { qd with timer := none } t := by
    unfold fireTimer
    rw [ht]
  rw [hf]
  set qd1 : QueueData := { qd with timer := none }
  have h1 := processQueue_inv I t hI qd1 hinv.rl_eq hinv.chain hinv.last_eq
    (by simp [qd1]; omega) (by simpa [qd1] using hne)
  refine ⟨h1.1, h1.2.1, ?_⟩
  have hguard : ¬ t - qd1.lastSent < I * 1000 := by
    simp [qd1]
    omega
  have := h1.2.2.1 hguard
  simpa [qd1] using this

theorem fireDue_succ_none (fuel : Nat) (qd : QueueData) (deadline : Nat)
    (h : qd.timer = none) : fireDue (fuel + 1) qd deadline = qd := by
  simp only [fireDue, h]

theorem fireDue_succ_some (fuel : Nat) (qd : QueueData) (deadline t : Nat)
    (h : qd.timer = some t) :
    fireDue (fuel + 1) qd deadline =
      if t ≤ deadline then fireDue fuel (fireTimer qd) deadline else qd := by
  simp only [fireDue, h]

theorem drainAll_succ_none (fuel : Nat) (qd : QueueData)
    (h : qd.timer = none) : drainAll (fuel + 1) qd = qd := by
  simp only [drainAll, h]

theorem drainAll_succ_some (fuel : Nat) (qd : QueueData) (t : Nat)
    (h : qd.timer = some t) : drainAll (fuel + 1) qd = drainAll fuel (fireTimer qd) := by
  simp only [drainAll, h]

/-- Invariant propagation for `fireDue`: firing every timer callback due at or
before `deadline` preserves the invariant (with `deadline` as the new time
bound) and the multiset/order of dispatched-plus-queued payloads. -/
theorem fireDue_inv (I : Nat) (hI : 0 < I) :
    ∀ (fuel : Nat) (qd : QueueData) (τ deadline : Nat),
      QInv I τ qd → τ ≤ deadline → qd.queue.length < fuel →
      QInv I deadline (fireDue fuel qd deadline) ∧
        sentPayloads (fireDue fuel qd deadline) ++ queuePayloads (fireDue fuel qd deadline) =
          sentPayloads qd ++ queuePayloads qd := by
  intro fuel
  induction fuel with
  | zero => intro qd τ deadline _ _ h; omega
  | succ fuel ih =>
      intro qd τ deadline hinv hτ hfuel
      cases hcase : qd.timer with
      | none =>
          rw [fireDue_succ_none fuel qd deadline hcase]
          exact ⟨hinv.mono hτ, rfl⟩
      | some t =>
          rw [fireDue_succ_some fuel qd deadline t hcase]
          by_cases htd : t ≤ deadline
          · rw [if_pos htd]
            have h1 := fireTimer_inv I τ hI qd hinv t hcase
            have h2 := ih (fireTimer qd) t deadline h1.1 htd (by omega)
            exact ⟨h2.1, by rw [h2.2, h1.2.1]⟩
          · rw [if_neg htd]
            exact ⟨hinv.mono hτ, rfl⟩

/-- Invariant propagation for a time-sorted run of enqueue events that all
carry the same configured interval `I`. -/
theorem runEvents_inv (I : Nat) (hI : 0 < I) :
    ∀ (evs : List EnqueueEvent) (qd : QueueData) (τ : Nat),
      QInv I τ qd →
      (∀ ev ∈ evs, ev.rateLimit = I) →
      List.Chain' (fun a b => a ≤ b) (τ :: evs.map EnqueueEvent.time) →
      ∃ qd2 τ2, runEvents evs (some qd) = some qd2 ∧
        QInv I τ2 qd2 ∧
        sentPayloads qd2 ++ queuePayloads qd2 =
          sentPayloads qd ++ queuePayloads qd ++ evs.map EnqueueEvent.payload := by
  intro evs
  induction evs with
  | nil =>
      intro qd τ hinv _ _
      exact ⟨qd, τ, rfl, hinv, by simp⟩
  | cons ev evs ih =>
      intro qd τ hinv hrl hchain
      have hτev : τ ≤ ev.time := (List.chain'_cons.mp hchain).1
      have hfd := fireDue_inv I hI (qd.queue.length + 1) qd τ ev.time hinv hτev
        (Nat.lt_succ_self _)
      have hadd := addToQueue_inv I ev.time ev.time ev.payload hI
        (fireDue (qd.queue.length + 1) qd ev.time) hfd.1 (le_refl _)
      have hrle : ev.rateLimit = I := hrl ev (by simp)
      have hstep :
          runEvents (ev :: evs) (some qd) =
            runEvents evs
              (some (addToQueue (some (fireDue (qd.queue.length + 1) qd ev.time))
                ev.payload ev.rateLimit ev.time).1) := rfl
      rw [hstep, hrle]
      obtain ⟨qd2, τ2, hrun, hinv2, hacc⟩ := ih
        (addToQueue (some (fireDue (qd.queue.length + 1) qd ev.time)) ev.payload I ev.time).1
        ev.time hadd.1 (fun e he => hrl e (by simp [he]))
        (List.chain'_cons.mp hchain).2
      refine ⟨qd2, τ2, hrun, hinv2, ?_⟩
      rw [hacc, hadd.2, hfd.2]
      simp

/-- After the last event, draining all remaining timer callbacks empties the
queue and dispatches every remaining entry, preserving the invariant. -/
theorem drainAll_inv (I : Nat) (hI : 0 < I) :
    ∀ (fuel : Nat) (qd : QueueData) (τ : Nat),
      QInv I τ qd → qd.queue.length < fuel →
      (drainAll fuel qd).queue = [] ∧
        sentPayloads (drainAll fuel qd) = sentPayloads qd ++ queuePayloads qd ∧
        List.Chain' (fun a b => a + I * 1000 ≤ b) (sendTimes (drainAll fuel qd)) := by
  intro fuel
  induction fuel with
  | zero => intro qd τ _ h; omega
  | succ fuel ih =>
      intro qd τ hinv hfuel
      cases hcase : qd.timer with
      | none =>
          rw [drainAll_succ_none fuel qd hcase]
          have hq : qd.queue = [] := by
            by_contra hne
            have := hinv.queue_timer hne
            rw [hcase] at this
            exact absurd this (by simp)
          refine ⟨hq, ?_, hinv.chain⟩
          unfold queuePayloads
          rw [hq]
          simp
      | some t =>
          rw [drainAll_succ_some fuel qd t hcase]
          have h1 := fireTimer_inv I τ hI qd hinv t hcase
          have h2 := ih (fireTimer qd) t h1.1 (by omega)
          refine ⟨h2.1, ?_, h2.2.2⟩
          rw [h2.2.1]
          exact h1.2.1

/-- **C2.**  For a single endpoint whose configured minimum interval `I` is
positive, three entries enqueued in order `e1, e2, e3` (at nondecreasing
times) are dispatched in exactly that order, and each consecutive pair of
recorded send timestamps is separated by at least `I` seconds
(`I * 1000` ms). -/
theorem c2_fifo_min_interval (e1 e2 e3 t1 t2 t3 I : Nat) (hI : 0 < I)
    (h12 : t1 ≤ t2) (h23 : t2 ≤ t3) :
    (runDeliveries [⟨t1, e1, I⟩, ⟨t2, e2, I⟩, ⟨t3, e3, I⟩]).sends.map Prod.fst =
        [e1, e2, e3] ∧
      List.Chain' (fun a b => a + I * 1000 ≤ b)
        ((runDeliveries [⟨t1, e1, I⟩, ⟨t2, e2, I⟩, ⟨t3, e3, I⟩]).sends.map Prod.snd) := by
  have h0 := addToQueue_none_inv I t1 e1 hI
  have hchain3 :
      List.Chain' (fun a b => a ≤ b)
        (t1 :: ([⟨t2, e2, I⟩, ⟨t3, e3, I⟩] : List EnqueueEvent).map EnqueueEvent.time) := by
    simp only [List.map_cons, List.map_nil, List.chain'_cons]
    exact ⟨h12, h23, List.chain'_singleton _⟩
  obtain ⟨qd2, τ2, hrun, hinv2, hacc⟩ :=
    runEvents_inv I hI [⟨t2, e2, I⟩, ⟨t3, e3, I⟩] (addToQueue none e1 I t1).1 t1 h0.1
      (by
        intro ev hev
        simp only [List.mem_cons, List.mem_singleton, List.not_mem_nil, or_false] at hev
        rcases hev with h | h <;> subst h <;> rfl) hchain3
  have hroute :
      runEvents [⟨t1, e1, I⟩, ⟨t2, e2, I⟩, ⟨t3, e3, I⟩] none = some qd2 := hrun
  have hdrain := drainAll_inv I hI (qd2.queue.length + 1) qd2 τ2 hinv2 (Nat.lt_succ_self _)
  have hfinal :
      runDeliveries [⟨t1, e1, I⟩, ⟨t2, e2, I⟩, ⟨t3, e3, I⟩] =
        drainAll (qd2.queue.length + 1) qd2 := by
    unfold runDeliveries
    rw [hroute]
  rw [hfinal]
  constructor
  · show sentPayloads (drainAll (qd2.queue.length + 1) qd2) = [e1, e2, e3]
    rw [hdrain.2.1, hacc, h0.2]
    rfl
  · exact hdrain.2.2

/-- Witness for `c2_fifo_min_interval` at a concrete run. -/
theorem c2_fifo_min_interval_witness :
    (runDeliveries [⟨0, 10, 2⟩, ⟨1000, 20, 2⟩, ⟨1500, 30, 2⟩]).sends.map Prod.fst =
        [10, 20, 30] ∧
      List.Chain' (fun a b => a + 2 * 1000 ≤ b)
        ((runDeliveries [⟨0, 10, 2⟩, ⟨1000, 20, 2⟩, ⟨1500, 30, 2⟩]).sends.map Prod.snd) :=
  c2_fifo_min_interval 10 20 30 0 1000 1500 2 (by decide) (by decide) (by decide)

/-! ## LinkedIn mutual-connections parser (content script)

The DOM is modelled as data: an element carries the string values the parser
reads (`textContent`, `innerText`, the `href` and `src` properties).  The
empty string models both an absent and an empty property, matching the
source's uniform use of JS truthiness (`x || ''`, `if (!x)`). -/

/-- A DOM element as seen by the parser. -/
structure DomElem where
  textContent : String
  innerText : String
  href : String
  src : String
deriving DecidableEq, Repr

/-- JS `a || b` on strings (the empty string is falsy). -/
def jsOr (a b : String) : String := if a = "" then b else a

/-- JS `a || b` on nullable elements (`null` is falsy). -/
def orElem (a b : Option DomElem) : Option DomElem :=
  match a with
  | some e => some e
  | none => b

/-- JS `(e.textContent || e.innerText || '')`. -/
def textOrInner (e : DomElem) : String := jsOr e.textContent e.innerText

/-- JS `(e?.textContent || e?.innerText || '')`. -/
def optTextOrInner (e? : Option DomElem) : String :=
  match e? with
  | some e => textOrInner e
  | none => ""

/-- JS `String.prototype.trim` on a character list: strip leading and
trailing whitespace.  (Implemented structurally on `List Char` so that it
reduces inside the kernel; equivalent to `String.trim` on the inputs at
hand.) -/
def jsTrimList (cs : List Char) : List Char :=
  ((cs.dropWhile Char.isWhitespace).reverse.dropWhile Char.isWhitespace).reverse

/-- JS `s.trim()`. -/
def jsTrim (s : String) : String := String.mk (jsTrimList s.toList)

/-- Split a character list on a separator character (every occurrence). -/
def splitOnCharAux (sep : Char) : List Char → List Char → List (List Char)
  | [], acc => [acc.reverse]
  | c :: rest, acc =>
    if c = sep then acc.reverse :: splitOnCharAux sep rest []
    else splitOnCharAux sep rest (c :: acc)

/-- All fields of a separated string, in order. -/
def splitOnChar (sep : Char) (cs : List Char) : List (List Char) :=
  splitOnCharAux sep cs []

/-! ### Field extractor (`extractTextContent`)

```js
extractTextContent(selector) {
  try {
    const element = document.querySelector(selector);
    return element ? (element.textContent || element.innerText || '').trim() : null;
  } catch (error) {
    return null;
  }
}
```

The selector argument is always a single comma-joined CSS selector-list
string (e.g. `'h1.text-heading-xlarge, .text-heading-xlarge, ...'`).  The
CSS engine is modelled by a `Doc`: the elements in document order, a
syntactic-validity predicate on individual candidate selectors, and a
matching predicate.  Per the CSS selectors specification (and browsers'
`querySelector`), a selector list with any syntactically invalid candidate
is invalid as a whole and the call throws; otherwise the first element in
document order matching any candidate is returned. -/

/-- The document, as consulted by `document.querySelector`. -/
structure Doc where
  elems : List DomElem
  valid : String → Bool
  matchesSel : String → DomElem → Bool

/-- Split a comma-joined selector-list string into its candidate selectors. -/
def splitSelectorList (selector : String) : List String :=
  (splitOnChar ',' selector.toList).map (fun cs => String.mk (jsTrimList cs))

/-- `document.querySelector(selector)`: `Except.error` models the thrown
`SyntaxError` when any candidate in the comma-joined list is invalid. -/
def querySelectorList (doc : Doc) (selector : String) : Except Unit (Option DomElem) :=
  let candidates := splitSelectorList selector
  if candidates.any (fun c => !doc.valid c) then
    .error ()
  else
    .ok (doc.elems.find? (fun e => candidates.any (fun c => doc.matchesSel c e)))

/-- Shallow embedding of `extractTextContent` (identical in
`contentScripts/linkedinParser.js` and the mutual-connections content
script): the whole lookup is wrapped in `try { } catch { return null }`. -/
def extractTextContent (doc : Doc) (selector : String) : Option String :=
  match querySelectorList doc selector with
  | .error _ => none
  | .ok none => none
  | .ok (some element) => some (jsTrim (textOrInner element))

/-- Modelled from the spec: `extractText(root, selectorList)` as the spec
describes it — "tries each selector in order, returns the trimmed text
content of the first element found whose selector matches, skipping
selectors that throw (invalid/unsupported selector syntax) rather than
propagating the error", null on exhaustion.  Used only to compare the
spec's description against the code's `extractTextContent`. -/
def specExtractTextPerCandidate (doc : Doc) : List String → Option String
  | [] => none
  | c :: rest =>
    if !doc.valid c then specExtractTextPerCandidate doc rest
    else
      match doc.elems.find? (fun e => doc.matchesSel c e) with
      | some e => some (jsTrim (textOrInner e))
      | none => specExtractTextPerCandidate doc rest

/-! ### Connection-row extraction (`extractConnectionData`)

```js
async extractConnectionData(element) {
  try {
    let nameElement = element.querySelector(this.config.selectors.connectionName);
    if (!nameElement) {
      nameElement = element.querySelector('.entity-result__title-text a, ...');
    }
    let profileUrlElement = element.querySelector(this.config.selectors.profileUrl);
    if (!profileUrlElement) {
      profileUrlElement = element.querySelector('a[href*="/in/"], ...');
    }
    if (!(nameElement && profileUrlElement)) { return null; }
    const headlineElement = element.querySelector(...) || element.querySelector(...);
    const locationElement = ...; const imageElement = ...;
    const badgeElement = ...; const premiumElement = ...;
    const connection = {
      name: (nameElement.textContent || nameElement.innerText || '').trim(),
      profileUrl: profileUrlElement.href || '',
      headline: (headlineElement?.textContent || headlineElement?.innerText || '').trim(),
      location: (locationElement?.textContent || locationElement?.innerText || '').trim(),
      profileImageUrl: imageElement?.src || '',
      connectionDegree: (badgeElement?.textContent || badgeElement?.innerText || '').trim(),
      isPremium: !!premiumElement,
      extractedAt: new Date().toISOString(),
    };
    if (!(connection.name && connection.profileUrl)) { return null; }
    return connection;
  } catch (err) { return null; }
}
```

A row candidate is modelled by the result of each `querySelector` call the
function makes (primary configured selector and fallback selector per
field). -/

/-- One search-result row, as the results of the `querySelector` calls
`extractConnectionData` performs on it. -/
structure RowDom where
  qNamePrimary : Option DomElem
  qNameFallback : Option DomElem
  qUrlPrimary : Option DomElem
  qUrlFallback : Option DomElem
  qHeadlinePrimary : Option DomElem
  qHeadlineFallback : Option DomElem
  qLocationPrimary : Option DomElem
  qLocationFallback : Option DomElem
  qImagePrimary : Option DomElem
  qImageFallback : Option DomElem
  qBadgePrimary : Option DomElem
  qBadgeFallback : Option DomElem
  qPremiumPrimary : Option DomElem
  qPremiumFallback : Option DomElem
deriving DecidableEq, Repr

/-- A parsed `ConnectionRecord`. -/
structure Connection where
  name : String
  profileUrl : String
  headline : String
  location : String
  profileImageUrl : String
  connectionDegree : String
  isPremium : Bool
  extractedAt : String
deriving DecidableEq, Repr

/-- Shallow embedding of `extractConnectionData`; `nowIso` stands for
`new Date().toISOString()`. -/
def extractConnectionData (element : RowDom) (nowIso : String) : Option Connection :=
  let nameElement := orElem element.qNamePrimary element.qNameFallback
  let profileUrlElement := orElem element.qUrlPrimary element.qUrlFallback
  match nameElement, profileUrlElement with
  | some ne, some pe =>
    let headlineElement := orElem element.qHeadlinePrimary element.qHeadlineFallback
    let locationElement := orElem element.qLocationPrimary element.qLocationFallback
    let imageElement := orElem element.qImagePrimary element.qImageFallback
    let badgeElement := orElem element.qBadgePrimary element.qBadgeFallback
    let premiumElement := orElem element.qPremiumPrimary element.qPremiumFallback
    let connection : Connection :=
      { name := jsTrim (textOrInner ne)
        profileUrl := pe.href
        headline := jsTrim (optTextOrInner headlineElement)
        location := jsTrim (optTextOrInner locationElement)
        profileImageUrl := (match imageElement with | some ie => ie.src | none => "")
        connectionDegree := jsTrim (optTextOrInner badgeElement)
        isPremium := premiumElement.isSome
        extractedAt := nowIso }
    if connection.name ≠ "" ∧ connection.profileUrl ≠ "" then some connection else none
  | _, _ => none

/-- The pure core of `parseSearchResults`: the primary result-item selector's
matches are used when non-empty, otherwise the alternative selector's
matches; each row goes through `extractConnectionData` and `null` results
are skipped. -/
def parseSearchResultsRows (resultItems alternativeItems : List RowDom) (nowIso : String) :
    List Connection :=
  if resultItems.length = 0 then
    alternativeItems.filterMap (fun item => extractConnectionData item nowIso)
  else
    resultItems.filterMap (fun item => extractConnectionData item nowIso)

/-! ### Multi-page session collector (`parseAllMutualConnections`)

```js
async parseAllMutualConnections(profileData) {
  if (this.isProcessing) { throw new Error('Parsing already in progress'); }
  this.isProcessing = true;
  this.currentSession = { profileData, startTime: Date.now(), connections: [], pagesProcessed: 0 };
  try {
    let currentPage = 1;
    while (currentPage <= this.config.maxPagesPerSession) {
      if (Date.now() - this.currentSession.startTime > this.config.sessionTimeout) {
        throw new Error('Session timeout exceeded');
      }
      const pageConnections = await this.parseSearchResults();
      this.currentSession.connections.push(...pageConnections);
      this.currentSession.pagesProcessed++;
      if (!this.hasNextPage()) { break; }
      await this.antiDetection.randomDelay(...);
      await this.navigateToNextPage();
      currentPage++;
    }
    return this.buildWebhookPayload();
  } finally {
    this.isProcessing = false;
  }
}
```

and the message-listener caller:

```js
if (request.action === 'parseAllMutualConnections') {
  parser.parseAllMutualConnections(request.profileData)
    .then((result) => { sendResponse({ success: true, data: result }); })
    .catch((error) => { sendResponse({ success: false, error: error.message }); });
  return true;
}
```

Each page iteration's environment (the clock value read by the timeout
check, whether `detectBotProtection` trips inside `parseSearchResults`, the
DOM rows of the page, and whether a next-page affordance exists) is supplied
by the oracle `steps : Nat → PageStep`. -/

/-- The environment of one page iteration. -/
structure PageStep where
  nowAtCheck : Nat
  botProtection : Bool
  resultItems : List RowDom
  alternativeItems : List RowDom
  nowIso : String
  hasNext : Bool

/-- `request.profileData` (assembled by the background script: profile name,
url, the opaque `facetConnectionOf` id and the approximate count detected on
the profile page).  The empty string models an absent field, as in the
source's `x || ''` uses. -/
structure ProfileData where
  profileName : String
  profileUrl : String
  encodedId : String
  totalCount : Option Nat
deriving DecidableEq, Repr

/-- `this.currentSession`. -/
structure Session where
  profileData : ProfileData
  startTime : Nat
  connections : List Connection
  pagesProcessed : Nat
deriving DecidableEq, Repr

/-- The collector's configuration (`maxPagesPerSession: 50`,
`sessionTimeout: 300_000`). -/
structure ParserConfig where
  maxPagesPerSession : Nat
  sessionTimeout : Nat
deriving DecidableEq, Repr

/-- The constructor's configuration values. -/
def defaultParserConfig : ParserConfig :=
  { maxPagesPerSession := 50, sessionTimeout := 300000 }

/-- The `while` loop of `parseAllMutualConnections`.  `remaining` counts the
iterations left under the page cap; an `Except.error` carries both the
thrown message and the session state at the moment of the throw (the
mutations applied to `this.currentSession` so far). -/
def sessionLoop (cfg : ParserConfig) (steps : Nat → PageStep) :
    Nat → Nat → Session → Except (String × Session) Session
  | _, 0, sess => .ok sess
  | pageIdx, r + 1, sess =>
    let st := steps pageIdx
    if st.nowAtCheck - sess.startTime > cfg.sessionTimeout then
      .error ("Session timeout exceeded", sess)
    else if st.botProtection then
      .error ("Bot protection detected - aborting parsing", sess)
    else
      let pageConnections := parseSearchResultsRows st.resultItems st.alternativeItems st.nowIso
      let sess1 : Session :=
        { sess with
          connections := sess.connections ++ pageConnections,
          pagesProcessed := sess.pagesProcessed + 1 }
      if !st.hasNext then .ok sess1
      else sessionLoop cfg steps (pageIdx + 1) r sess1

/-- Metadata block of the aggregate payload. -/
structure PayloadMeta where
  timestamp : String
  sessionId : String
  version : String
  source : String
deriving DecidableEq, Repr

/-- The aggregate webhook payload built by `buildWebhookPayload`. -/
structure Payload where
  profileViewedName : String
  profileViewedUrl : String
  profileViewedEncodedId : String
  mutualConnections : List Connection
  totalCount : Nat
  pagesScraped : Nat
  extractionDuration : Nat
  metadata : PayloadMeta
deriving DecidableEq, Repr

/-- Shallow embedding of `buildWebhookPayload`; `now` stands for the
`Date.now()` read for `extractionDuration`, `timestampIso` and `sessionId`
for `new Date().toISOString()` and `this.generateSessionId()`. -/
def buildWebhookPayload (session : Session) (now : Nat) (timestampIso sessionId : String) :
    Payload :=
  { profileViewedName := session.profileData.profileName
    profileViewedUrl := session.profileData.profileUrl
    profileViewedEncodedId := session.profileData.encodedId
    mutualConnections := session.connections
    totalCount := session.connections.length
    pagesScraped := session.pagesProcessed
    extractionDuration := now - session.startTime
    metadata :=
      { timestamp := timestampIso, sessionId := sessionId, version := "2.0",
        source := "linkedin-mutual-connections" } }

/-- The parser instance's mutable state (`this.isProcessing`,
`this.currentSession`). -/
structure ParserState where
  isProcessing : Bool
  currentSession : Option Session
deriving DecidableEq, Repr

/-- Shallow embedding of `parseAllMutualConnections`, returning the
promise's outcome together with the parser state after the call (the
`finally` clause clears `isProcessing`; on a throw `this.currentSession`
keeps the session as mutated so far). -/
def parseAllMutualConnections (cfg : ParserConfig) (ps : ParserState)
    (profileData : ProfileData) (startTime : Nat) (steps : Nat → PageStep)
    (endNow : Nat) (timestampIso sessionId : String) :
    Except String Payload × ParserState :=
  if ps.isProcessing then
    (.error "Parsing already in progress", ps)
  else
    let sess0 : Session :=
      { profileData := profileData, startTime := startTime, connections := [],
        pagesProcessed := 0 }
    match sessionLoop cfg steps 0 cfg.maxPagesPerSession sess0 with
    | .ok sessEnd =>
        (.ok (buildWebhookPayload sessEnd endNow timestampIso sessionId),
          { isProcessing := false, currentSession := some sessEnd })
    | .error (msg, sessErr) =>
        (.error msg, { isProcessing := false, currentSession := some sessErr })

/-- What `sendResponse` delivers to the caller of the
`parseAllMutualConnections` message: `{ success: true, data }` or
`{ success: false, error: error.message }`. -/
inductive MessageResponse
  | ok (data : Payload)
  | err (error : String)
deriving DecidableEq, Repr

/-- The message-listener branch for `action === 'parseAllMutualConnections'`. -/
def handleParseAllMutualConnections (cfg : ParserConfig) (ps : ParserState)
    (profileData : ProfileData) (startTime : Nat) (steps : Nat → PageStep)
    (endNow : Nat) (timestampIso sessionId : String) :
    MessageResponse × ParserState :=
  match parseAllMutualConnections cfg ps profileData startTime steps endNow
      timestampIso sessionId with
  | (.ok p, ps2) => (.ok p, ps2)
  | (.error m, ps2) => (.err m, ps2)

/-! ### Bi-directional payload builder (`buildBidirectionalPayloads`) -/

/-- `profileViewed` block of a per-connection bi-directional payload. -/
structure BidiProfileViewed where
  name : String
  profileUrl : String
  linkedinId : Option String
deriving DecidableEq, Repr

/-- `mutualConnectionsWith` block of a per-connection bi-directional payload. -/
structure BidiMutualWith where
  name : String
  profileUrl : String
  linkedinId : Option String
  encodedId : String
deriving DecidableEq, Repr

/-- `connectionDetails` block of a per-connection bi-directional payload. -/
structure BidiDetails where
  headline : String
  location : String
  profileImageUrl : String
  connectionDegree : String
  isPremium : Bool
  extractedAt : String
deriving DecidableEq, Repr

/-- Metadata block of a per-connection bi-directional payload. -/
structure BidiMeta where
  timestamp : String
  sessionId : String
  version : String
  source : String
  relationType : String
deriving DecidableEq, Repr

/-- One per-connection bi-directional payload. -/
structure BidiPayload where
  profileViewed : BidiProfileViewed
  mutualConnectionsWith : BidiMutualWith
  connectionDetails : BidiDetails
  metadata : BidiMeta
deriving DecidableEq, Repr

/-- The heterogeneous list `buildBidirectionalPayloads` returns: the
aggregate payload followed by per-connection payloads. -/
inductive OutPayload
  | main (p : Payload)
  | bidi (b : BidiPayload)
deriving DecidableEq, Repr

/-- `extractLinkedInIdFromUrl`, scanning for the regex
`/\/in\/([^/?]+)/`: the first occurrence of `/in/` followed by at least one
character other than `/` and `?`. -/
def linkedInIdAux : List Char → Option (List Char)
  | [] => none
  | c :: rest =>
    match c, rest with
    | '/', 'i' :: 'n' :: '/' :: tail =>
      let captured := tail.takeWhile (fun ch => ch != '/' && ch != '?')
      if captured.isEmpty then linkedInIdAux rest else some captured
    | _, _ => linkedInIdAux rest

/-- Shallow embedding of `extractLinkedInIdFromUrl`. -/
def extractLinkedInIdFromUrl (url : String) : Option String :=
  (linkedInIdAux url.toList).map (fun cs => String.mk cs)

/-- The per-connection payload built inside the
`session.connections.forEach` loop of `buildBidirectionalPayloads`. -/
def mkBidiPayload (sourceProfile : ProfileData) (connection : Connection)
    (timestampIso sessionId : String) : BidiPayload :=
  { profileViewed :=
      { name := connection.name
        profileUrl := connection.profileUrl
        linkedinId := extractLinkedInIdFromUrl connection.profileUrl }
    mutualConnectionsWith :=
      { name := sourceProfile.profileName
        profileUrl := sourceProfile.profileUrl
        linkedinId := extractLinkedInIdFromUrl sourceProfile.profileUrl
        encodedId := sourceProfile.encodedId }
    connectionDetails :=
      { headline := connection.headline
        location := connection.location
        profileImageUrl := connection.profileImageUrl
        connectionDegree := connection.connectionDegree
        isPremium := connection.isPremium
        extractedAt := connection.extractedAt }
    metadata :=
      { timestamp := timestampIso, sessionId := sessionId, version := "2.0",
        source := "linkedin-bidirectional-connection",
        relationType := "mutual_connection" } }

/-- Shallow embedding of `buildBidirectionalPayloads`: pushes the aggregate
payload, then one per-connection payload per `forEach` step.  (The source
draws a fresh timestamp and session id per payload; a single value for each
is passed here since no verified property depends on their distinctness.) -/
def buildBidirectionalPayloads (session : Session) (now : Nat)
    (timestampIso sessionId : String) : List OutPayload :=
  let sourceProfile := session.profileData
  let payloads : List OutPayload :=
    [OutPayload.main (buildWebhookPayload session now timestampIso sessionId)]
  session.connections.foldl
    (fun acc connection =>
      acc ++ [OutPayload.bidi (mkBidiPayload sourceProfile connection timestampIso sessionId)])
    payloads

/-! ### Mutual-connections detection (`detectMutualConnections`)

```js
detectMutualConnections() {
  try {
    const mutualConnectionsElement = document.querySelector(this.config.selectors.mutualConnectionsLink);
    if (!mutualConnectionsElement) { return null; }
    const href = mutualConnectionsElement.href;
    if (!href) { return null; }
    const url = new URL(href);
    const encodedId = url.searchParams.get('facetConnectionOf');
    if (!encodedId) { return null; }
    const text = mutualConnectionsElement.textContent || '';
    const countMatch = text.match(/(\d+)\s+(?:other\s+)?mutual\s+connections/i);
    const totalCount = countMatch ? Number.parseInt(countMatch[1]) + 2 : null; // +2 for the named ones
    return { searchUrl: href, encodedId, totalCount, text: text.trim() };
  } catch (err) { return null; }
}
```

`URL.searchParams.get` follows the WHATWG `application/x-www-form-urlencoded`
parser: the query string is split on `&`, each pair on the first `=`, and
both key and value are percent-decoded (with `+` decoding to a space).  The
regex and this query parsing are embedded below. -/

/-- Hexadecimal digit value. -/
def hexVal (c : Char) : Option Nat :=
  if '0' ≤ c ∧ c ≤ '9' then some (c.toNat - 48)
  else if 'a' ≤ c ∧ c ≤ 'f' then some (c.toNat - 87)
  else if 'A' ≤ c ∧ c ≤ 'F' then some (c.toNat - 55)
  else none

/-- `application/x-www-form-urlencoded` decoding: `+` becomes a space and
`%HH` becomes the byte `HH`; a malformed escape is kept verbatim. -/
def percentDecodeAux : List Char → List Char
  | [] => []
  | '%' :: a :: b :: rest =>
    match hexVal a, hexVal b with
    | some x, some y => Char.ofNat (x * 16 + y) :: percentDecodeAux rest
    | _, _ => '%' :: percentDecodeAux (a :: b :: rest)
  | '+' :: rest => ' ' :: percentDecodeAux rest
  | c :: rest => c :: percentDecodeAux rest

/-- The query of a URL: everything after the first `?`, up to the first
`#`. -/
def queryChars (href : String) : List Char :=
  ((href.toList.dropWhile (fun c => c ≠ '?')).drop 1).takeWhile (fun c => c ≠ '#')

/-- `new URL(href).searchParams.get(key)`: the query is split on `&`, each
pair on its first `=` (a pair without `=` has the empty value), and the
decoded value of the first pair whose decoded key equals `key` is returned. -/
def getSearchParam (href key : String) : Option String :=
  (splitOnChar '&' (queryChars href)).findSome? (fun p =>
    let k := p.takeWhile (fun c => c ≠ '=')
    let v := (p.dropWhile (fun c => c ≠ '=')).drop 1
    if String.mk (percentDecodeAux k) = key then some (String.mk (percentDecodeAux v))
    else none)

/-- Literal matching for the regex embedding. -/
def expectLit : List Char → List Char → Option (List Char)
  | [], rest => some rest
  | _ :: _, [] => none
  | l :: ls, c :: rest => if c = l then expectLit ls rest else none

/-- `\s+`: at least one whitespace character, consumed greedily. -/
def skipWs1 : List Char → Option (List Char)
  | [] => none
  | c :: rest =>
    if c.isWhitespace then some (rest.dropWhile Char.isWhitespace) else none

/-- `mutual\s+connections` (on lowercased input). -/
def matchMutualConnectionsLit (cs : List Char) : Bool :=
  match expectLit ['m', 'u', 't', 'u', 'a', 'l'] cs with
  | none => false
  | some cs1 =>
    match skipWs1 cs1 with
    | none => false
    | some cs2 =>
      (expectLit ['c', 'o', 'n', 'n', 'e', 'c', 't', 'i', 'o', 'n', 's'] cs2).isSome

/-- `\s+(?:other\s+)?mutual\s+connections` (on lowercased input), with the
regex's greedy-first treatment of the optional `other\s+` group. -/
def matchTailAfterDigits (cs : List Char) : Bool :=
  match skipWs1 cs with
  | none => false
  | some cs1 =>
    let withOther :=
      match expectLit ['o', 't', 'h', 'e', 'r'] cs1 with
      | none => false
      | some cs2 =>
        match skipWs1 cs2 with
        | none => false
        | some cs3 => matchMutualConnectionsLit cs3
    if withOther then true else matchMutualConnectionsLit cs1

/-- `Number.parseInt` on a non-empty digit run. -/
def natOfDigits (ds : List Char) : Nat :=
  ds.foldl (fun n c => n * 10 + (c.toNat - 48)) 0

/-- Leftmost match of `/(\d+)\s+(?:other\s+)?mutual\s+connections/` on a
lowercased character list, returning the captured integer. -/
def matchMutualCountAux : List Char → Option Nat
  | [] => none
  | c :: rest =>
    if c.isDigit then
      let ds := (c :: rest).takeWhile Char.isDigit
      let after := (c :: rest).dropWhile Char.isDigit
      if matchTailAfterDigits after then some (natOfDigits ds)
      else matchMutualCountAux rest
    else matchMutualCountAux rest

/-- `text.match(/(\d+)\s+(?:other\s+)?mutual\s+connections/i)` with the
captured group parsed by `Number.parseInt`. -/
def matchMutualCount (text : String) : Option Nat :=
  matchMutualCountAux (text.toList.map Char.toLower)

/-- The link element read by `detectMutualConnections`. -/
structure LinkElem where
  textContent : String
  href : String
deriving DecidableEq, Repr

/-- The object `detectMutualConnections` returns. -/
structure MutualDetection where
  searchUrl : String
  encodedId : String
  totalCount : Option Nat
  text : String
deriving DecidableEq, Repr

/-- Shallow embedding of `detectMutualConnections`.  The argument is the
element found by `document.querySelector(config.selectors.mutualConnectionsLink)`
(or `none`).  `encodedId` is what `url.searchParams.get('facetConnectionOf')`
returns; the JS falsiness check `if (!encodedId)` rejects both a missing
parameter and an empty decoded value. -/
def detectMutualConnections (mutualConnectionsElement : Option LinkElem) :
    Option MutualDetection :=
  match mutualConnectionsElement with
  | none => none
  | some el =>
    if el.href = "" then none
    else
      match getSearchParam el.href "facetConnectionOf" with
      | none => none
      | some encodedId =>
        if encodedId = "" then none
        else
          let text := el.textContent
          let totalCount := (matchMutualCount text).map (fun n => n + 2)
          some
            { searchUrl := el.href, encodedId := encodedId,
              totalCount := totalCount, text := jsTrim text }

/-! ### Shared sample data for concrete runs -/

/-- A result row with a usable name and profile link and nothing else. -/
def sampleRow : RowDom :=
  { qNamePrimary := some ⟨"Jane Roe", "", "", ""⟩
    qNameFallback := none
    qUrlPrimary := some ⟨"", "", "https://www.linkedin.com/in/jane-roe", ""⟩
    qUrlFallback := none
    qHeadlinePrimary := none, qHeadlineFallback := none
    qLocationPrimary := none, qLocationFallback := none
    qImagePrimary := none, qImageFallback := none
    qBadgePrimary := none, qBadgeFallback := none
    qPremiumPrimary := none, qPremiumFallback := none }

/-- The connection record `extractConnectionData` produces from `sampleRow`. -/
def sampleConnection (t : String) : Connection :=
  { name := "Jane Roe", profileUrl := "https://www.linkedin.com/in/jane-roe",
    headline := "", location := "", profileImageUrl := "", connectionDegree := "",
    isPremium := false, extractedAt := t }

/-- A profile-data object for concrete runs. -/
def sampleProfileData : ProfileData :=
  { profileName := "Src", profileUrl := "https://www.linkedin.com/in/src",
    encodedId := "ENC", totalCount := some 7 }

/-! ### Helper lemmas -/

theorem extractConnectionData_some (element : RowDom) (nowIso : String) (c : Connection)
    (h : extractConnectionData element nowIso = some c) :
    c.name ≠ "" ∧ c.profileUrl ≠ "" := by
  unfold extractConnectionData at h
  cases hn : orElem element.qNamePrimary element.qNameFallback with
  | none => rw [hn] at h; simp at h
  | some ne =>
    cases hp : orElem element.qUrlPrimary element.qUrlFallback with
    | none => rw [hn, hp] at h; simp at h
    | some pe =>
      rw [hn, hp] at h
      simp only at h
      by_cases hcond :
          jsTrim (textOrInner ne) ≠ "" ∧ pe.href ≠ ""
      · rw [if_pos hcond] at h
        obtain ⟨h1, h2⟩ := hcond
        cases h
        exact ⟨h1, h2⟩
      · rw [if_neg hcond] at h
        simp at h

theorem parseSearchResultsRows_mem (items alt : List RowDom) (nowIso : String)
    (c : Connection) (h : c ∈ parseSearchResultsRows items alt nowIso) :
    c.name ≠ "" ∧ c.profileUrl ≠ "" := by
  unfold parseSearchResultsRows at h
  by_cases hl : items.length = 0 <;>
    simp only [hl, if_pos, if_neg, List.mem_filterMap, if_true, if_false] at h
  · obtain ⟨a, _, ha⟩ := h
    exact extractConnectionData_some a nowIso c ha
  · obtain ⟨a, _, ha⟩ := h
    exact extractConnectionData_some a nowIso c ha

theorem sessionLoop_ok_mem (cfg : ParserConfig) (steps : Nat → PageStep) :
    ∀ (r pageIdx : Nat) (sess sessEnd : Session),
      sessionLoop cfg steps pageIdx r sess = .ok sessEnd →
      (∀ c ∈ sess.connections, c.name ≠ "" ∧ c.profileUrl ≠ "") →
      ∀ c ∈ sessEnd.connections, c.name ≠ "" ∧ c.profileUrl ≠ "" := by
  intro r
  induction r with
  | zero =>
      intro pageIdx sess sessEnd h hsess
      unfold sessionLoop at h
      cases h
      exact hsess
  | succ r ih =>
      intro pageIdx sess sessEnd h hsess
      unfold sessionLoop at h
      by_cases ht : (steps pageIdx).nowAtCheck - sess.startTime > cfg.sessionTimeout
      · rw [if_pos ht] at h
        simp at h
      · rw [if_neg ht] at h
        by_cases hb : (steps pageIdx).botProtection = true
        · simp only [hb, if_true] at h
          simp at h
        · simp only [Bool.not_eq_true] at hb
          simp only [hb, Bool.false_eq_true, if_false] at h
          have hmem1 :
              ∀ c ∈ sess.connections ++
                  parseSearchResultsRows (steps pageIdx).resultItems
                    (steps pageIdx).alternativeItems (steps pageIdx).nowIso,
                c.name ≠ "" ∧ c.profileUrl ≠ "" := by
            intro c hc
            rcases List.mem_append.mp hc with h1 | h2
            · exact hsess c h1
            · exact parseSearchResultsRows_mem _ _ _ c h2
          by_cases hnx : (steps pageIdx).hasNext = true
          · simp only [hnx, Bool.not_true, Bool.false_eq_true, if_false] at h
            exact ih (pageIdx + 1) _ sessEnd h hmem1
          · simp only [Bool.not_eq_true] at hnx
            simp only [hnx, Bool.not_false, if_true] at h
            cases h
            exact hmem1

theorem foldl_push_eq_map {α β : Type} (f : α → β) :
    ∀ (l : List α) (init : List β),
      l.foldl (fun acc x => acc ++ [f x]) init = init ++ l.map f := by
  intro l
  induction l with
  | nil => intro init; simp
  | cons x xs ih =>
      intro init
      simp only [List.foldl_cons, List.map_cons]
      rw [ih]
      simp

/-- Page-step oracle for a run whose 2nd iteration finds the session past its
5-minute timeout after the 1st page yielded one connection. -/
def timeoutSteps : Nat → PageStep := fun k =>
  if k = 0 then
    { nowAtCheck := 1000, botProtection := false, resultItems := [sampleRow],
      alternativeItems := [], nowIso := "T0", hasNext := true }
  else
    { nowAtCheck := 400000, botProtection := false, resultItems := [],
      alternativeItems := [], nowIso := "T1", hasNext := false }

/-- **C3, counterexample.**  On a session whose 2nd page iteration trips the
wall-clock timeout after one connection was collected on the 1st page, the
caller receives only `{ success: false, error: 'Session timeout exceeded' }`:
the partial records (one collected connection, retained only in the parser's
internal session object) are not part of the response, contradicting the
claim that the partial connection records are still returned to the caller. -/
theorem c3_counterexample :
    handleParseAllMutualConnections defaultParserConfig
        { isProcessing := false, currentSession := none }
        sampleProfileData 0 timeoutSteps 400000 "TS" "SID" =
      (MessageResponse.err "Session timeout exceeded",
        { isProcessing := false,
          currentSession := some
            { profileData := sampleProfileData, startTime := 0,
              connections := [sampleConnection "T0"], pagesProcessed := 1 } }) ∧
      ([sampleConnection "T0"] : List Connection) ≠ [] := by
  exact ⟨by decide, by decide⟩

/-- **C3, amended.**  The session wall-clock timeout (default 5 minutes) is
checked once at the top of each page iteration, before the page is parsed:
tripping it aborts the session with the distinct error message
`'Session timeout exceeded'`, leaving the session as already accumulated.
The partial connection records are NOT returned to the caller: the message
response carries only `{ success: false, error }`, the accumulated records
surviving only in the parser's internal `currentSession`; the processing
flag is cleared. -/
theorem c3_timeout_abort :
    (∀ (cfg : ParserConfig) (steps : Nat → PageStep) (pageIdx r : Nat) (sess : Session),
      (steps pageIdx).nowAtCheck - sess.startTime > cfg.sessionTimeout →
      sessionLoop cfg steps pageIdx (r + 1) sess = .error ("Session timeout exceeded", sess)) ∧
    (∀ (cfg : ParserConfig) (ps : ParserState) (profileData : ProfileData)
        (startTime : Nat) (steps : Nat → PageStep) (endNow : Nat)
        (timestampIso sessionId : String) (sessErr : Session),
      ps.isProcessing = false →
      sessionLoop cfg steps 0 cfg.maxPagesPerSession
          { profileData := profileData, startTime := startTime, connections := [],
            pagesProcessed := 0 } =
        .error ("Session timeout exceeded", sessErr) →
      handleParseAllMutualConnections cfg ps profileData startTime steps endNow
          timestampIso sessionId =
        (MessageResponse.err "Session timeout exceeded",
          { isProcessing := false, currentSession := some sessErr })) := by
  constructor
  · intro cfg steps pageIdx r sess h
    unfold sessionLoop
    rw [if_pos h]
  · intro cfg ps profileData startTime steps endNow timestampIso sessionId sessErr hps hloop
    unfold handleParseAllMutualConnections parseAllMutualConnections
    rw [hps]
    simp only [Bool.false_eq_true, if_false]
    rw [hloop]

/-- Witness for `c3_timeout_abort` at the concrete timed-out run. -/
theorem c3_timeout_abort_witness :
    sessionLoop defaultParserConfig timeoutSteps 1 49
        { profileData := sampleProfileData, startTime := 0,
          connections := [sampleConnection "T0"], pagesProcessed := 1 } =
      .error ("Session timeout exceeded",
        { profileData := sampleProfileData, startTime := 0,
          connections := [sampleConnection "T0"], pagesProcessed := 1 }) ∧
    handleParseAllMutualConnections defaultParserConfig
        { isProcessing := false, currentSession := none }
        sampleProfileData 0 timeoutSteps 400000 "TS" "SID" =
      (MessageResponse.err "Session timeout exceeded",
        { isProcessing := false,
          currentSession := some
            { profileData := sampleProfileData, startTime := 0,
              connections := [sampleConnection "T0"], pagesProcessed := 1 } }) :=
  ⟨c3_timeout_abort.1 defaultParserConfig timeoutSteps 1 49 _ (by decide),
    c3_timeout_abort.2 defaultParserConfig
      { isProcessing := false, currentSession := none }
      sampleProfileData 0 timeoutSteps 400000 "TS" "SID" _ rfl rfl⟩

/-- The link href of the worked example. -/
def exampleHref : String :=
  "https://www.linkedin.com/search/results/people/?facetConnectionOf=%22ABC%22"

/-- **C4, counterexample.**  On the example page
(`"5 other mutual connections"`, href query `facetConnectionOf=%22ABC%22`),
`detectMutualConnections` returns `url.searchParams.get('facetConnectionOf')`,
which percent-decodes `%22` to a double-quote character: the result's
`encodedId` is the 5-character string `"ABC"` (quotes included), not `ABC` as
claimed. -/
theorem c4_counterexample :
    (detectMutualConnections
          (some ⟨"5 other mutual connections", exampleHref⟩)).map MutualDetection.encodedId =
        some "\x22ABC\x22" ∧
      ("\x22ABC\x22" : String) ≠ "ABC" := by
  exact ⟨by decide, by decide⟩

/-- **C4, amended.**  On the example page, `detectMutualConnections` returns a
non-null result whose `encodedId` is the percent-DECODED parameter value
`"ABC"` (with the literal quote characters from `%22`), and whose approximate
total count is 7 (the 5 parsed from the label plus the fixed +2 offset for
the two named individuals shown inline). -/
theorem c4_detection_example :
    detectMutualConnections (some ⟨"5 other mutual connections", exampleHref⟩) =
      some
        { searchUrl := exampleHref, encodedId := "\x22ABC\x22", totalCount := some 7,
          text := "5 other mutual connections" } := by
  decide

/-- **C5.**  Any payload successfully returned by a collection run contains
no connection record with an empty (or null, modelled as empty) name or
profile URL: candidates lacking either essential field were dropped by
`extractConnectionData`. -/
theorem c5_essential_fields (cfg : ParserConfig) (ps : ParserState)
    (profileData : ProfileData) (startTime : Nat) (steps : Nat → PageStep)
    (endNow : Nat) (timestampIso sessionId : String) (p : Payload) (ps2 : ParserState)
    (h : parseAllMutualConnections cfg ps profileData startTime steps endNow
          timestampIso sessionId = (.ok p, ps2)) :
    ∀ c ∈ p.mutualConnections, c.name ≠ "" ∧ c.profileUrl ≠ "" := by
  unfold parseAllMutualConnections at h
  by_cases hps : ps.isProcessing = true
  · rw [if_pos hps] at h
    simp at h
  · simp only [Bool.not_eq_true] at hps
    rw [hps] at h
    simp only [Bool.false_eq_true, if_false] at h
    cases hloop : sessionLoop cfg steps 0 cfg.maxPagesPerSession
        { profileData := profileData, startTime := startTime, connections := [],
          pagesProcessed := 0 } with
    | ok sessEnd =>
        rw [hloop] at h
        have hp : p = buildWebhookPayload sessEnd endNow timestampIso sessionId := by
          cases h
          rfl
        subst hp
        intro c hc
        exact sessionLoop_ok_mem cfg steps cfg.maxPagesPerSession 0 _ sessEnd hloop
          (by intro c hc; simp at hc) c hc
    | error e =>
        rw [hloop] at h
        cases h

/-- One-page run for the witnesses: one row, no next page. -/
def onePageSteps : Nat → PageStep := fun _ =>
  { nowAtCheck := 0, botProtection := false, resultItems := [sampleRow],
    alternativeItems := [], nowIso := "T0", hasNext := false }

/-- Witness for `c5_essential_fields` on a concrete completed run. -/
theorem c5_essential_fields_witness :
    (sampleConnection "T0").name ≠ "" ∧ (sampleConnection "T0").profileUrl ≠ "" :=
  c5_essential_fields defaultParserConfig { isProcessing := false, currentSession := none }
    sampleProfileData 0 onePageSteps 5 "TS" "SID"
    { profileViewedName := "Src", profileViewedUrl := "https://www.linkedin.com/in/src",
      profileViewedEncodedId := "ENC", mutualConnections := [sampleConnection "T0"],
      totalCount := 1, pagesScraped := 1, extractionDuration := 5,
      metadata :=
        { timestamp := "TS", sessionId := "SID", version := "2.0",
          source := "linkedin-mutual-connections" } }
    { isProcessing := false,
      currentSession := some
        { profileData := sampleProfileData, startTime := 0,
          connections := [sampleConnection "T0"], pagesProcessed := 1 } }
    rfl (sampleConnection "T0") (by decide)

/-- A one-element document whose element matches the candidate `span`; the
candidate `p(` is syntactically invalid. -/
def exampleDoc : Doc :=
  { elems := [⟨"Hello World", "", "", ""⟩]
    valid := fun s => s != "p("
    matchesSel := fun sel _ => sel == "span" }

/-- **C6, counterexample.**  `extractTextContent` receives the candidate list
as one comma-joined `querySelector` string; a single invalid candidate makes
the whole selector list invalid, so the call throws and is caught, yielding
null — the valid candidate `span` that matches an element is never tried.
The spec's per-candidate procedure (skip the throwing selector, advance to
the next) would return the element's text instead. -/
theorem c6_counterexample :
    extractTextContent exampleDoc "p(, span" = none ∧
      specExtractTextPerCandidate exampleDoc ["p(", "span"] = some "Hello World" ∧
      (none : Option String) ≠ some "Hello World" := by
  exact ⟨rfl, rfl, by decide⟩

/-- **C6, amended.**  `extractTextContent` takes a single comma-joined
selector-list string.  If any candidate in the list is syntactically invalid
the whole lookup throws internally, is caught, and null is returned — the
error never propagates, but no remaining candidate is tried either.  If all
candidates are valid it returns the trimmed text of the first element in
document order matching any candidate, and null when nothing matches. -/
theorem c6_extract_text_behavior :
    (∀ (doc : Doc) (selector : String),
      (splitSelectorList selector).any (fun c => !doc.valid c) = true →
      extractTextContent doc selector = none) ∧
    (∀ (doc : Doc) (selector : String),
      (splitSelectorList selector).any (fun c => !doc.valid c) = false →
      extractTextContent doc selector =
        (doc.elems.find?
            (fun e => (splitSelectorList selector).any (fun c => doc.matchesSel c e))).map
          (fun e => jsTrim (textOrInner e))) := by
  constructor
  · intro doc selector h
    unfold extractTextContent querySelectorList
    simp only [h, if_true]
  · intro doc selector h
    unfold extractTextContent querySelectorList
    simp only [h, Bool.false_eq_true, if_false]
    cases hf : doc.elems.find?
        (fun e => (splitSelectorList selector).any (fun c => doc.matchesSel c e)) with
    | none => simp
    | some e => simp

/-- Witness for `c6_extract_text_behavior` on `exampleDoc`. -/
theorem c6_extract_text_behavior_witness :
    extractTextContent exampleDoc "p(, span" = none ∧
      extractTextContent exampleDoc "span" =
        (exampleDoc.elems.find?
            (fun e => (splitSelectorList "span").any (fun c => exampleDoc.matchesSel c e))).map
          (fun e => jsTrim (textOrInner e)) :=
  ⟨c6_extract_text_behavior.1 exampleDoc "p(, span" (by decide),
    c6_extract_text_behavior.2 exampleDoc "span" (by decide)⟩

/-- A page-step oracle that never finds results or next pages. -/
def emptySteps : Nat → PageStep := fun _ =>
  { nowAtCheck := 0, botProtection := false, resultItems := [],
    alternativeItems := [], nowIso := "", hasNext := false }

/-- **C7.**  At most one session may run per parser instance: calling
`parseAllMutualConnections` while `isProcessing` is set throws
`'Parsing already in progress'` immediately and returns the parser state
completely unchanged (the in-progress session's accumulated records, page
counter and flag are untouched); and a call that does start (flag clear)
always leaves `isProcessing = false` afterwards, on completion and on every
error alike, so a new session can start. -/
theorem c7_session_mutual_exclusion :
    (∀ (cfg : ParserConfig) (ps : ParserState) (profileData : ProfileData)
        (startTime : Nat) (steps : Nat → PageStep) (endNow : Nat)
        (timestampIso sessionId : String),
      ps.isProcessing = true →
      parseAllMutualConnections cfg ps profileData startTime steps endNow
          timestampIso sessionId =
        (.error "Parsing already in progress", ps)) ∧
    (∀ (cfg : ParserConfig) (ps : ParserState) (profileData : ProfileData)
        (startTime : Nat) (steps : Nat → PageStep) (endNow : Nat)
        (timestampIso sessionId : String),
      ps.isProcessing = false →
      (parseAllMutualConnections cfg ps profileData startTime steps endNow
          timestampIso sessionId).2.isProcessing = false) := by
  constructor
  · intro cfg ps profileData startTime steps endNow timestampIso sessionId h
    unfold parseAllMutualConnections
    rw [h]
    simp
  · intro cfg ps profileData startTime steps endNow timestampIso sessionId h
    unfold parseAllMutualConnections
    rw [h]
    simp only [Bool.false_eq_true, if_false]
    cases hloop : sessionLoop cfg steps 0 cfg.maxPagesPerSession
        { profileData := profileData, startTime := startTime, connections := [],
          pagesProcessed := 0 } with
    | ok sessEnd => rfl
    | error e => cases e; rfl

/-- Witness for `c7_session_mutual_exclusion`. -/
theorem c7_session_mutual_exclusion_witness :
    parseAllMutualConnections defaultParserConfig
        { isProcessing := true, currentSession := none }
        sampleProfileData 0 emptySteps 0 "TS" "SID" =
      (.error "Parsing already in progress",
        { isProcessing := true, currentSession := none }) ∧
      (parseAllMutualConnections defaultParserConfig
          { isProcessing := false, currentSession := none }
          sampleProfileData 0 emptySteps 0 "TS" "SID").2.isProcessing = false :=
  ⟨c7_session_mutual_exclusion.1 defaultParserConfig
      { isProcessing := true, currentSession := none }
      sampleProfileData 0 emptySteps 0 "TS" "SID" rfl,
    c7_session_mutual_exclusion.2 defaultParserConfig
      { isProcessing := false, currentSession := none }
      sampleProfileData 0 emptySteps 0 "TS" "SID" rfl⟩

/-- **C8.**  `buildBidirectionalPayloads` returns exactly `1 + N` payloads
for `N` collected connections: the aggregate payload first, then one
per-connection payload per connection in order, each shaped
`{profileViewed, mutualConnectionsWith, connectionDetails, metadata}` with
`metadata.relationType = "mutual_connection"`, describing the relationship
from that connection's point of view (connection as profile viewed, source
profile as mutual connection). -/
theorem c8_bidirectional_payloads (session : Session) (now : Nat)
    (timestampIso sessionId : String) :
    buildBidirectionalPayloads session now timestampIso sessionId =
        OutPayload.main (buildWebhookPayload session now timestampIso sessionId) ::
          session.connections.map
            (fun c => OutPayload.bidi (mkBidiPayload session.profileData c timestampIso sessionId)) ∧
      (buildBidirectionalPayloads session now timestampIso sessionId).length =
        1 + session.connections.length ∧
      (∀ q ∈ (buildBidirectionalPayloads session now timestampIso sessionId).tail,
        ∃ c ∈ session.connections,
          q = OutPayload.bidi (mkBidiPayload session.profileData c timestampIso sessionId)) ∧
      ∀ c : Connection,
        (mkBidiPayload session.profileData c timestampIso sessionId).metadata.relationType =
            "mutual_connection" ∧
          (mkBidiPayload session.profileData c timestampIso sessionId).profileViewed.name =
            c.name ∧
          (mkBidiPayload session.profileData c timestampIso sessionId).profileViewed.profileUrl =
            c.profileUrl ∧
          (mkBidiPayload session.profileData c timestampIso sessionId).mutualConnectionsWith.name =
            session.profileData.profileName ∧
          (mkBidiPayload session.profileData c
              timestampIso sessionId).mutualConnectionsWith.profileUrl =
            session.profileData.profileUrl := by
  have hmain :
      buildBidirectionalPayloads session now timestampIso sessionId =
        OutPayload.main (buildWebhookPayload session now timestampIso sessionId) ::
          session.connections.map
            (fun c => OutPayload.bidi (mkBidiPayload session.profileData c timestampIso sessionId)) := by
    unfold buildBidirectionalPayloads
    rw [foldl_push_eq_map
      (fun c => OutPayload.bidi (mkBidiPayload session.profileData c timestampIso sessionId))]
    simp
  refine ⟨hmain, ?_, ?_, ?_⟩
  · rw [hmain]
    simp [Nat.add_comm]
  · rw [hmain]
    simp only [List.tail_cons]
    intro q hq
    obtain ⟨c, hc, rfl⟩ := List.mem_map.mp hq
    exact ⟨c, hc, rfl⟩
  · intro c
    exact ⟨rfl, rfl, rfl, rfl, rfl⟩

/-- The internal session of the concrete one-page run. -/
def sampleSession : Session :=
  { profileData := sampleProfileData, startTime := 0,
    connections := [sampleConnection "T0"], pagesProcessed := 1 }

/-- Witness for `c8_bidirectional_payloads` at a concrete session. -/
theorem c8_bidirectional_payloads_witness :
    ∃ c ∈ sampleSession.connections,
      OutPayload.bidi (mkBidiPayload sampleSession.profileData (sampleConnection "T0") "TS" "SID") =
        OutPayload.bidi (mkBidiPayload sampleSession.profileData c "TS" "SID") :=
  (c8_bidirectional_payloads sampleSession 5 "TS" "SID").2.2.1
    (OutPayload.bidi (mkBidiPayload sampleSession.profileData (sampleConnection "T0") "TS" "SID"))
    (by decide)

/-- **C9.**  The aggregate payload's `totalCount` equals the length of its
own `mutualConnections` array (the records actually collected and
validated), `pagesScraped` equals the session's pages-processed counter, and
`totalCount` is independent of the approximate count detected from the
profile page's label (carried in `profileData.totalCount`). -/
theorem c9_total_count_invariant (session : Session) (now : Nat)
    (timestampIso sessionId : String) :
    (buildWebhookPayload session now timestampIso sessionId).totalCount =
        (buildWebhookPayload session now timestampIso sessionId).mutualConnections.length ∧
      (buildWebhookPayload session now timestampIso sessionId).totalCount =
        session.connections.length ∧
      (buildWebhookPayload session now timestampIso sessionId).pagesScraped =
        session.pagesProcessed ∧
      ∀ approx : Option Nat,
        (buildWebhookPayload
            { session with
              profileData := { session.profileData with totalCount := approx } }
            now timestampIso sessionId).totalCount =
          (buildWebhookPayload session now timestampIso sessionId).totalCount :=
  ⟨rfl, rfl, rfl, fun _ => rfl⟩

/-- A row whose profile-link element's `href` value is a single space. -/
def whitespaceHrefRow : RowDom :=
  { qNamePrimary := some ⟨"John Doe", "", "", ""⟩
    qNameFallback := none
    qUrlPrimary := some ⟨"", "", " ", ""⟩
    qUrlFallback := none
    qHeadlinePrimary := none, qHeadlineFallback := none
    qLocationPrimary := none, qLocationFallback := none
    qImagePrimary := none, qImageFallback := none
    qBadgePrimary := none, qBadgeFallback := none
    qPremiumPrimary := none, qPremiumFallback := none }

/-- A row whose name element's text is whitespace-only. -/
def whitespaceNameRow : RowDom :=
  { qNamePrimary := some ⟨"   ", "", "", ""⟩
    qNameFallback := none
    qUrlPrimary := some ⟨"", "", "https://www.linkedin.com/in/x", ""⟩
    qUrlFallback := none
    qHeadlinePrimary := none, qHeadlineFallback := none
    qLocationPrimary := none, qLocationFallback := none
    qImagePrimary := none, qImageFallback := none
    qBadgePrimary := none, qBadgeFallback := none
    qPremiumPrimary := none, qPremiumFallback := none }

/-- **C10, counterexample.**  The profile-URL essential-field check is on the
raw `href` value (`profileUrlElement.href || ''`), not on trimmed text: a
candidate whose href is the single space `" "` — a value that trims to the
empty string — is NOT excluded; the record is returned with
`profileUrl = " "`. -/
theorem c10_counterexample :
    extractConnectionData whitespaceHrefRow "T" =
      some
        { name := "John Doe", profileUrl := " ", headline := "", location := "",
          profileImageUrl := "", connectionDegree := "", isPremium := false,
          extractedAt := "T" } ∧
      jsTrim " " = "" ∧ (" " : String) ≠ "" := by
  exact ⟨by decide, by decide, by decide⟩

/-- **C10, amended.**  Essential-field validation operates on trimmed text
for the NAME only: the name is extracted as
`(textContent || innerText || '').trim()`, so a name element whose text
trims to the empty string is excluded.  The profile URL is validated
untrimmed (`profileUrlElement.href || ''`): only an exactly-empty href is
excluded, and every returned record has a non-empty (trimmed) name and a
non-empty raw profile URL. -/
theorem c10_trimmed_name_validation :
    (∀ (element : RowDom) (nowIso : String) (ne : DomElem),
      orElem element.qNamePrimary element.qNameFallback = some ne →
      jsTrim (textOrInner ne) = "" →
      extractConnectionData element nowIso = none) ∧
    (∀ (element : RowDom) (nowIso : String) (c : Connection),
      extractConnectionData element nowIso = some c →
      c.name ≠ "" ∧ c.profileUrl ≠ "") := by
  constructor
  · intro element nowIso ne hn hz
    unfold extractConnectionData
    rw [hn]
    cases hp : orElem element.qUrlPrimary element.qUrlFallback with
    | none => rfl
    | some pe =>
        simp only
        rw [if_neg]
        intro hcond
        exact hcond.1 hz
  · intro element nowIso c h
    exact extractConnectionData_some element nowIso c h

/-- Witness for `c10_trimmed_name_validation`. -/
theorem c10_trimmed_name_validation_witness :
    extractConnectionData whitespaceNameRow "T" = none ∧
      ((sampleConnection "T").name ≠ "" ∧ (sampleConnection "T").profileUrl ≠ "") :=
  ⟨c10_trimmed_name_validation.1 whitespaceNameRow "T" ⟨"   ", "", "", ""⟩ rfl (by decide),
    c10_trimmed_name_validation.2 sampleRow "T" (sampleConnection "T") (by decide)⟩

end WebhookExt
